import Mathlib

/-!
Shallow embedding of the log-aggregation pipeline of `cors-server.py`
(`handle_logs_request`, lines 178-336) together with the CORS/preflight
constants it serves. Python string primitives that the handler uses
(`str.strip`, `str.split`, `in`, `str.upper`, `str.replace`, slicing)
are embedded as executable functions on `List Char` / `String`.
-/

namespace CorsServer

/-- Python `str` whitespace used by `str.strip()`: space, tab, newline,
carriage return, vertical tab, form feed. -/
def isPySpace (c : Char) : Bool :=
  c = ' ' || c = '\t' || c = '\n' || c = '\r' || c = '\x0b' || c = '\x0c'

/-- Embedding of Python `s.strip()`: drop leading and trailing whitespace. -/
def pyStrip (s : String) : String :=
  (((s.data.dropWhile isPySpace).reverse.dropWhile isPySpace).reverse).asString

/-- Embedding of Python `c in s` for a single character `c` (substring test
specialised to one character). -/
def pyContainsChar (s : String) (c : Char) : Bool :=
  s.data.contains c

/-- `leadsWith n h` is true when the list `n` is an initial segment of `h`. -/
def leadsWith : List Char → List Char → Bool
  | [], _ => true
  | _ :: _, [] => false
  | a :: as, b :: bs => a = b && leadsWith as bs

/-- `hasSeg n h` is true when `n` occurs contiguously inside `h`; this is
Python `n in h` for strings. -/
def hasSeg (n : List Char) : List Char → Bool
  | [] => leadsWith n []
  | c :: cs => leadsWith n (c :: cs) || hasSeg n cs

/-- Embedding of Python `needle in hay` for strings. -/
def pyIn (needle hay : String) : Bool :=
  hasSeg needle.data hay.data

/-- Embedding of Python `s.upper()` (ASCII case mapping, which is what the
log keywords exercise). -/
def pyUpper (s : String) : String :=
  (s.data.map Char.toUpper).asString

/-- Embedding of Python `s[:n]`: keep the first `n` characters. -/
def pyTruncate (s : String) (n : Nat) : String :=
  (s.data.take n).asString

/-- Embedding of Python `s.replace(old, repl)` for a one-character `old`;
`repl` is given as a character list so that `replace('Z', '')` is
`replaceCharWith 'Z' []`. Every occurrence is replaced. -/
def replaceCharWith (old : Char) (repl : List Char) (s : String) : String :=
  (s.data.flatMap (fun c => if c = old then repl else [c])).asString

/-- Splits a character list at its first space: `none` when there is no
space, otherwise the characters before it and the characters after it. -/
def splitFirstSpace : List Char → Option (List Char × List Char)
  | [] => none
  | c :: cs =>
    if c = ' ' then some ([], cs)
    else
      match splitFirstSpace cs with
      | none => none
      | some (a, b) => some (c :: a, b)

/-- Embedding of Python `line.split(' ', 1)`: at most one split, at the
first space. -/
def pySplit1 (s : String) : List String :=
  match splitFirstSpace s.data with
  | none => [s]
  | some (a, b) => [a.asString, b.asString]

/-- Embedding of Python `s.split(sep)` for a one-character separator with
no maxsplit (used as `logs_data.strip().split('\n')`). -/
def splitCharAux (sep : Char) : List Char → List Char → List (List Char)
  | [], acc => [acc.reverse]
  | c :: cs, acc =>
    if c = sep then acc.reverse :: splitCharAux sep cs []
    else splitCharAux sep cs (c :: acc)

/-- Embedding of Python `s.split(sep)`, one-character separator. -/
def pySplitChar (sep : Char) (s : String) : List String :=
  (splitCharAux sep s.data []).map List.asString

/-- Severity level of a log record: the four values the handler assigns. -/
inductive Level where
  | debug
  | info
  | warning
  | error
deriving DecidableEq

/-- One normalized log entry as built by `handle_logs_request`. -/
structure LogRecord where
  timestamp : String
  level : Level
  message : String
deriving DecidableEq

/-- The keyword rules of lines 228-237: `message_upper = message.upper()`
then four `any(keyword in message_upper ...)` tests in order, starting
from `level = 'info'`. -/
def classify (message : String) : Level :=
  let u := pyUpper message
  if ["ERROR", "EXCEPTION", "FAILED", "FATAL"].any (fun k => pyIn k u) then .error
  else if ["WARN", "WARNING"].any (fun k => pyIn k u) then .warning
  else if ["DEBUG"].any (fun k => pyIn k u) then .debug
  else if ["STARTED", "READY", "SUCCESS", "RUNNING"].any (fun k => pyIn k u) then .info
  else .info

/-- The per-line body of the parsing loop, lines 217-250: skip a blank
line; on a line containing both `T` and `Z`, split at the first space and
only when that yields two parts build a record (timestamp is part 1 with
every `T` turned into a space and every `Z` removed, message is part 2
classified then cut to 800 characters); otherwise fall back to the whole
line with the wall-clock timestamp `now` and level `info`. A `T`/`Z` line
without a space appends nothing. -/
def processLine (now : String) (line : String) : List LogRecord :=
  if (pyStrip line).data = [] then []
  else if pyContainsChar line 'T' = true ∧ pyContainsChar line 'Z' = true then
    match pySplit1 line with
    | p0 :: p1 :: _ =>
      [{ timestamp := replaceCharWith 'Z' [] (replaceCharWith 'T' [' '] p0),
         level := classify p1,
         message := pyTruncate p1 800 }]
    | _ => []
  else
    [{ timestamp := now, level := .info, message := pyTruncate line 800 }]

/-- The record built by the `except` arm of the per-line loop
(lines 251-257): wall-clock timestamp, level `info`, line cut to 800. -/
def exceptFallbackRecord (now line : String) : LogRecord :=
  { timestamp := now, level := .info, message := pyTruncate line 800 }

/-- Lines 215-257: `logs_data.strip().split('\n')` processed line by line,
records appended in order. -/
def parseRecords (now : String) (logsData : String) : List LogRecord :=
  (pySplitChar '\n' (pyStrip logsData)).flatMap (processLine now)

/-- The JSON response envelope of the handler. `total`, `source`,
`container` and `error` are `Option` because the three response shapes of
the handler carry different key sets. -/
structure LogFeed where
  success : Bool
  logs : List LogRecord
  total : Option Nat
  source : Option String
  container : Option String
  error : Option String
deriving DecidableEq

/-- Lines 259-265: the success response, with `logs[-50:]` and
`total = len(logs)` before truncation. -/
def assembleFeed (records : List LogRecord) (used : String) : LogFeed :=
  { success := true,
    logs := records.drop (records.length - 50),
    total := some records.length,
    source := some ("docker:" ++ used),
    container := some used,
    error := none }

/-- Outcome of one external `subprocess.run` call: an exception
(`TimeoutExpired` or any other) versus a completed process with its
return code and captured stdout. -/
inductive FetchOutcome where
  | raised
  | completed (returncode : Int) (stdout : String)

/-- The per-candidate success test of line 202: the call completed,
`returncode == 0`, and `stdout.strip()` is non-empty. -/
def goodCandidate (fetch : String → FetchOutcome) (name : String) : Bool :=
  match fetch name with
  | .raised => false
  | .completed rc out => decide (rc = 0 ∧ (pyStrip out).data ≠ [])

/-- The candidate loop of lines 195-211: try each container name in
order, swallow exceptions, stop at the first candidate whose logs call
succeeds with non-empty stripped output; return its stdout and name. -/
def resolveSource (fetch : String → FetchOutcome) : List String → Option (String × String)
  | [] => none
  | name :: rest =>
    match fetch name with
    | .raised => resolveSource fetch rest
    | .completed rc out =>
      if rc = 0 ∧ (pyStrip out).data ≠ [] then some (out, name)
      else resolveSource fetch rest

/-- The hard-coded candidate list of lines 185-190. -/
def containerNames : List String :=
  ["localstack-main", "localstack-demo-localstack-1", "localstack_main", "localstack"]

/-- Lines 279-284: the best-effort `docker ps` listing; a non-zero status
degrades to "Unable to list containers", an exception to
"Docker not available". -/
def containerListing (ps : FetchOutcome) : String :=
  match ps with
  | .raised => "Docker not available"
  | .completed rc out => if rc = 0 then out else "Unable to list containers"

/-- Lines 286-314: the troubleshooting feed built when no candidate
yielded logs: four synthetic records and `source = 'troubleshooting'`,
`success = True`. -/
def diagnosticFeed (now : String) (listing : String) : LogFeed :=
  { success := true,
    logs :=
      [{ timestamp := now, level := .warning,
         message := "No LocalStack container found running" },
       { timestamp := now, level := .info,
         message := "Searched for containers: " ++ String.intercalate ", " containerNames },
       { timestamp := now, level := .info,
         message := "Available containers:" },
       { timestamp := now, level := .debug,
         message := pyTruncate listing 500 }],
    total := some 4,
    source := some "troubleshooting",
    container := none,
    error := none }

/-- Lines 321-336: the boundary `except` arm, converting an exception
message `e` into a `success: False` envelope with one error record. -/
def errorFeed (now : String) (e : String) : LogFeed :=
  { success := false,
    logs := [{ timestamp := now, level := .error,
               message := "Error fetching logs: " ++ e }],
    total := none,
    source := none,
    container := none,
    error := some ("Failed to fetch logs: " ++ e) }

/-- The body of `handle_logs_request` inside its `try`: resolve a source
among the candidates, then either parse and assemble (status 200) or
build the diagnostic feed (status 200). `now` stands for
`datetime.datetime.now().strftime(...)`, `fetch` for the
`docker logs` calls and `ps` for the `docker ps` call. -/
def handleLogs (now : String) (fetch : String → FetchOutcome) (ps : FetchOutcome) :
    LogFeed × Nat :=
  match resolveSource fetch containerNames with
  | some (data, used) => (assembleFeed (parseRecords now data) used, 200)
  | none => (diagnosticFeed now (containerListing ps), 200)

/-- The outer `try/except` of the handler: a normally produced response
passes through, an unexpected exception `e` becomes `errorFeed` with
HTTP status 500. -/
def handleLogsBoundary (now : String) (run : Except String (LogFeed × Nat)) :
    LogFeed × Nat :=
  match run with
  | .ok r => r
  | .error e => (errorFeed now e, 500)

/-- Predicate for a non-space character, used to describe the two pieces
of a split at the first space. -/
def notSpace (c : Char) : Bool :=
  c != ' '

/-- The characters of `line` before its first space (the whole line when
there is no space). -/
def firstSpaceToken (line : String) : String :=
  (line.data.takeWhile notSpace).asString

/-- The characters of `line` after its first space. -/
def restAfterFirstSpace (line : String) : String :=
  (line.data.drop ((line.data.takeWhile notSpace).length + 1)).asString

/-- The severity rules exactly as the claim words them: error keywords,
else warning keywords, else `DEBUG`, else `info`; stated separately from
`classify` so their agreement is a theorem rather than a definition. -/
def classifyClaim (message : String) : Level :=
  let u := pyUpper message
  if ["ERROR", "EXCEPTION", "FAILED", "FATAL"].any (fun k => pyIn k u) then .error
  else if ["WARN", "WARNING"].any (fun k => pyIn k u) then .warning
  else if ["DEBUG"].any (fun k => pyIn k u) then .debug
  else .info

/-- A fixed record used to instantiate universally quantified theorems on
concrete inputs. -/
def sampleRecord : LogRecord :=
  { timestamp := "2024-08-08 10:30:45", level := .info, message := "ok" }

/-! ## Facts about the embedded string primitives -/

theorem pyTruncate_length_le (s : String) (n : Nat) : (pyTruncate s n).length ≤ n := by
  show (s.data.take n).length ≤ n
  exact List.length_take_le n s.data

theorem mem_of_pyContainsChar {s : String} {c : Char}
    (h : pyContainsChar s c = true) : c ∈ s.data :=
  List.elem_iff.mp h

theorem not_mem_of_pyContainsChar {s : String} {c : Char}
    (h : pyContainsChar s c = false) : c ∉ s.data := by
  intro hm
  have h2 : pyContainsChar s c = true := List.elem_iff.mpr hm
  rw [h2] at h
  cases h

theorem mem_dropWhile_of_neg {p : Char → Bool} {c : Char} (hc : p c = false) :
    ∀ l : List Char, c ∈ l → c ∈ l.dropWhile p := by
  intro l
  induction l with
  | nil => intro h; cases h
  | cons a as ih =>
    intro hmem
    rw [List.dropWhile_cons]
    by_cases hpa : p a = true
    · rw [if_pos hpa]
      rcases List.mem_cons.mp hmem with he | hm
      · subst he
        rw [hc] at hpa
        cases hpa
      · exact ih hm
    · rw [if_neg hpa]
      exact hmem

theorem pyStrip_ne_nil_of_mem {s : String} {c : Char}
    (hmem : c ∈ s.data) (hsp : isPySpace c = false) : (pyStrip s).data ≠ [] := by
  have h1 := mem_dropWhile_of_neg hsp s.data hmem
  have h2 := mem_dropWhile_of_neg hsp _ (List.mem_reverse.mpr h1)
  exact List.ne_nil_of_mem (List.mem_reverse.mpr h2)

/-! ## Characterizing the split at the first space -/

theorem splitFirstSpace_of_no_space :
    ∀ {l : List Char}, ' ' ∉ l → splitFirstSpace l = none := by
  intro l
  induction l with
  | nil => intro _; rfl
  | cons c cs ih =>
    intro h
    have hc : ¬(c = ' ') := fun he => h (he ▸ List.mem_cons_self c cs)
    simp only [splitFirstSpace]
    rw [if_neg hc, ih (fun hm => h (List.mem_cons_of_mem c hm))]

theorem splitFirstSpace_of_space :
    ∀ {l : List Char}, ' ' ∈ l →
      splitFirstSpace l =
        some (l.takeWhile notSpace, l.drop ((l.takeWhile notSpace).length + 1)) := by
  intro l
  induction l with
  | nil => intro h; cases h
  | cons c cs ih =>
    intro h
    by_cases hc : c = ' '
    · subst hc
      simp only [splitFirstSpace, if_pos rfl, List.takeWhile_cons]
      have hns : notSpace ' ' = false := rfl
      rw [hns]
      simp
    · have hcs : ' ' ∈ cs := by
        rcases List.mem_cons.mp h with he | hm
        · exact absurd he.symm hc
        · exact hm
      have hns : notSpace c = true := by
        simp [notSpace, hc]
      simp only [splitFirstSpace]
      rw [if_neg hc, ih hcs]
      simp [List.takeWhile_cons, hns, List.drop_succ_cons]

theorem pySplit1_of_no_space {line : String} (h : pyContainsChar line ' ' = false) :
    pySplit1 line = [line] := by
  simp only [pySplit1]
  rw [splitFirstSpace_of_no_space (not_mem_of_pyContainsChar h)]

theorem pySplit1_of_space {line : String} (h : pyContainsChar line ' ' = true) :
    pySplit1 line = [firstSpaceToken line, restAfterFirstSpace line] := by
  simp only [pySplit1]
  rw [splitFirstSpace_of_space (mem_of_pyContainsChar h)]
  rfl

/-! ## Case analysis of the per-line parser -/

theorem processLine_of_blank {line : String} (now : String)
    (h : (pyStrip line).data = []) : processLine now line = [] := by
  unfold processLine
  rw [if_pos h]

theorem processLine_of_noTZ {line : String} (now : String)
    (hnb : (pyStrip line).data ≠ [])
    (h : ¬(pyContainsChar line 'T' = true ∧ pyContainsChar line 'Z' = true)) :
    processLine now line =
      [{ timestamp := now, level := .info, message := pyTruncate line 800 }] := by
  unfold processLine
  rw [if_neg hnb, if_neg h]

theorem processLine_of_TZ_no_space {line : String} (now : String)
    (hT : pyContainsChar line 'T' = true) (hZ : pyContainsChar line 'Z' = true)
    (hsp : pyContainsChar line ' ' = false) :
    processLine now line = [] := by
  have hnb : (pyStrip line).data ≠ [] :=
    pyStrip_ne_nil_of_mem (mem_of_pyContainsChar hT) (by decide)
  unfold processLine
  rw [if_neg hnb, if_pos ⟨hT, hZ⟩, pySplit1_of_no_space hsp]

theorem processLine_of_TZ_space {line : String} (now : String)
    (hT : pyContainsChar line 'T' = true) (hZ : pyContainsChar line 'Z' = true)
    (hsp : pyContainsChar line ' ' = true) :
    processLine now line =
      [{ timestamp :=
           replaceCharWith 'Z' [] (replaceCharWith 'T' [' '] (firstSpaceToken line)),
         level := classify (restAfterFirstSpace line),
         message := pyTruncate (restAfterFirstSpace line) 800 }] := by
  have hnb : (pyStrip line).data ≠ [] :=
    pyStrip_ne_nil_of_mem (mem_of_pyContainsChar hT) (by decide)
  unfold processLine
  rw [if_neg hnb, if_pos ⟨hT, hZ⟩, pySplit1_of_space hsp]

theorem processLine_length_le (now line : String) :
    (processLine now line).length ≤ 1 := by
  unfold processLine
  split
  · exact Nat.zero_le 1
  · split
    · split
      · exact Nat.le_refl 1
      · exact Nat.zero_le 1
    · exact Nat.le_refl 1

theorem processLine_message_le (now line : String) {r : LogRecord}
    (h : r ∈ processLine now line) : r.message.length ≤ 800 := by
  unfold processLine at h
  split at h
  · cases h
  · split at h
    · split at h
      · rw [List.mem_singleton] at h
        subst h
        exact pyTruncate_length_le _ _
      · cases h
    · rw [List.mem_singleton] at h
      subst h
      exact pyTruncate_length_le _ _

/-! ## Generic list facts used by the assembler and line loop -/

theorem flatMap_filter_of_nil {α β : Type} (f : α → List β) (p : α → Bool)
    (hf : ∀ a, p a = false → f a = []) :
    ∀ l : List α, l.flatMap f = (l.filter p).flatMap f := by
  intro l
  induction l with
  | nil => rfl
  | cons a as ih =>
    rw [List.flatMap_cons, List.filter_cons]
    by_cases hp : p a = true
    · rw [if_pos hp, List.flatMap_cons, ih]
    · have hpf : p a = false := by
        simpa using hp
      rw [if_neg hp, hf a hpf, List.nil_append, ih]

theorem length_flatMap_le_of_le_one {α β : Type} (f : α → List β)
    (hf : ∀ a, (f a).length ≤ 1) :
    ∀ l : List α, (l.flatMap f).length ≤ l.length := by
  intro l
  induction l with
  | nil => exact Nat.le_refl 0
  | cons a as ih =>
    rw [List.flatMap_cons, List.length_append, List.length_cons]
    have h1 := hf a
    omega

/-! ## Characterizing the candidate loop -/

theorem goodCandidate_raised {fetch : String → FetchOutcome} {name : String}
    (hf : fetch name = .raised) : goodCandidate fetch name = false := by
  unfold goodCandidate
  rw [hf]

theorem goodCandidate_completed {fetch : String → FetchOutcome} {name : String}
    {rc : Int} {out : String} (hf : fetch name = .completed rc out) :
    goodCandidate fetch name = decide (rc = 0 ∧ (pyStrip out).data ≠ []) := by
  unfold goodCandidate
  rw [hf]

theorem resolveSource_none_iff (fetch : String → FetchOutcome) :
    ∀ cs : List String,
      resolveSource fetch cs = none ↔ ∀ c ∈ cs, goodCandidate fetch c = false := by
  intro cs
  induction cs with
  | nil => simp [resolveSource]
  | cons name rest ih =>
    have step : ∀ hrest : resolveSource fetch (name :: rest) = resolveSource fetch rest,
        goodCandidate fetch name = false →
        (resolveSource fetch (name :: rest) = none ↔
          ∀ c ∈ name :: rest, goodCandidate fetch c = false) := by
      intro hrest hg
      rw [hrest]
      constructor
      · intro h c hc
        rcases List.mem_cons.mp hc with he | hm
        · rw [he]
          exact hg
        · exact (ih.mp h) c hm
      · intro h
        exact ih.mpr (fun c hc => h c (List.mem_cons_of_mem _ hc))
    cases hf : fetch name with
    | raised =>
      refine step ?_ (goodCandidate_raised hf)
      simp only [resolveSource, hf]
    | completed rc out =>
      by_cases hcond : rc = 0 ∧ (pyStrip out).data ≠ []
      · have hres : resolveSource fetch (name :: rest) = some (out, name) := by
          simp only [resolveSource, hf]
          rw [if_pos hcond]
        rw [hres]
        refine iff_of_false (by simp) ?_
        intro hall
        have hg := hall name (List.mem_cons_self _ _)
        rw [goodCandidate_completed hf, decide_eq_true hcond] at hg
        cases hg
      · refine step ?_ ?_
        · simp only [resolveSource, hf]
          rw [if_neg hcond]
        · rw [goodCandidate_completed hf]
          exact decide_eq_false hcond

theorem resolveSource_some_spec (fetch : String → FetchOutcome) :
    ∀ (cs : List String) (out used : String),
      resolveSource fetch cs = some (out, used) →
      ∃ i, ∃ hi : i < cs.length,
        cs.get ⟨i, hi⟩ = used ∧
        fetch used = FetchOutcome.completed 0 out ∧
        (pyStrip out).data ≠ [] ∧
        ∀ j (hj : j < i), goodCandidate fetch (cs.get ⟨j, Nat.lt_trans hj hi⟩) = false := by
  intro cs
  induction cs with
  | nil =>
    intro out used h
    simp [resolveSource] at h
  | cons name rest ih =>
    intro out used h
    have tailStep :
        resolveSource fetch rest = some (out, used) →
        goodCandidate fetch name = false →
        ∃ i, ∃ hi : i < (name :: rest).length,
          (name :: rest).get ⟨i, hi⟩ = used ∧
          fetch used = FetchOutcome.completed 0 out ∧
          (pyStrip out).data ≠ [] ∧
          ∀ j (hj : j < i),
            goodCandidate fetch ((name :: rest).get ⟨j, Nat.lt_trans hj hi⟩) = false := by
      intro hrest hg
      obtain ⟨i, hi, h1, h2, h3, h4⟩ := ih out used hrest
      refine ⟨i + 1, Nat.succ_lt_succ hi, h1, h2, h3, ?_⟩
      intro j hj
      cases j with
      | zero => exact hg
      | succ j0 => exact h4 j0 (Nat.lt_of_succ_lt_succ hj)
    cases hf : fetch name with
    | raised =>
      simp only [resolveSource, hf] at h
      exact tailStep h (goodCandidate_raised hf)
    | completed rc out0 =>
      by_cases hcond : rc = 0 ∧ (pyStrip out0).data ≠ []
      · simp only [resolveSource, hf] at h
        rw [if_pos hcond] at h
        simp only [Option.some.injEq, Prod.mk.injEq] at h
        obtain ⟨rfl, rfl⟩ := h
        refine ⟨0, Nat.succ_pos _, rfl, ?_, hcond.2, ?_⟩
        · rw [hf, hcond.1]
        · intro j hj
          exact absurd hj (Nat.not_lt_zero j)
      · simp only [resolveSource, hf] at h
        rw [if_neg hcond] at h
        refine tailStep h ?_
        rw [goodCandidate_completed hf]
        exact decide_eq_false hcond

/-! ## Claims -/

/-- C1 counterexample: the line "2024-08-08T10:30:45.123456789Z" is
non-blank, contains both T and Z, and splits into a single part at the
first space, yet `processLine` produces no record for it: the claimed
fallback record (entire raw line as message, wall-clock timestamp) is
not produced and the non-blank line is silently dropped. -/
theorem c1_counterexample :
    (pyStrip "2024-08-08T10:30:45.123456789Z").data ≠ [] ∧
    pyContainsChar "2024-08-08T10:30:45.123456789Z" 'T' = true ∧
    pyContainsChar "2024-08-08T10:30:45.123456789Z" 'Z' = true ∧
    pySplit1 "2024-08-08T10:30:45.123456789Z" = ["2024-08-08T10:30:45.123456789Z"] ∧
    processLine "2024-08-08 10:30:45" "2024-08-08T10:30:45.123456789Z" = [] := by
  decide

/-- C1 amended: a non-blank line containing both T and Z but no space is
silently dropped and yields zero records; a non-blank line lacking T or
Z falls back to exactly one record with the generated wall-clock
timestamp and the entire raw line (truncated to 800) as message. -/
theorem c1_line_fallback (now line : String) (hnb : (pyStrip line).data ≠ []) :
    (pyContainsChar line 'T' = true → pyContainsChar line 'Z' = true →
       pyContainsChar line ' ' = false → processLine now line = []) ∧
    (¬(pyContainsChar line 'T' = true ∧ pyContainsChar line 'Z' = true) →
       processLine now line =
         [{ timestamp := now, level := .info, message := pyTruncate line 800 }]) := by
  constructor
  · intro hT hZ hsp
    exact processLine_of_TZ_no_space now hT hZ hsp
  · intro h
    exact processLine_of_noTZ now hnb h

/-- C1 witness: the amended statement evaluated on the dropped line "TZ"
and on the fallback line "hello". -/
theorem c1_line_fallback_witness :
    processLine "2024-08-08 10:30:45" "TZ" = [] ∧
    processLine "2024-08-08 10:30:45" "hello" =
      [{ timestamp := "2024-08-08 10:30:45", level := .info, message := "hello" }] := by
  constructor
  · exact (c1_line_fallback "2024-08-08 10:30:45" "TZ" (by decide)).1
      (by decide) (by decide) (by decide)
  · have h := (c1_line_fallback "2024-08-08 10:30:45" "hello" (by decide)).2 (by decide)
    rw [h]
    decide

/-- C8 counterexample: on the line "TZ1Z hello" (both T and Z present,
one space), the first part is "TZ1Z" and the code produces timestamp
" 1": the interior Z is removed as well, whereas the claim predicts
" Z1" (only a trailing Z stripped, any other Z preserved). -/
theorem c8_counterexample :
    processLine "t" "TZ1Z hello" =
      [{ timestamp := " 1", level := .info, message := "hello" }] ∧
    (" 1" : String) ≠ " Z1" := by
  decide

/-- C8 amended: for every line containing both T and Z that splits at
the first space into two parts, the record's timestamp is the first part
with every T replaced by a space and every Z removed (not only a
trailing one), and the record's message is everything after the first
space, classified and truncated to 800 characters. -/
theorem c8_timestamped_parse (now line : String)
    (hT : pyContainsChar line 'T' = true) (hZ : pyContainsChar line 'Z' = true)
    (hsp : pyContainsChar line ' ' = true) :
    processLine now line =
      [{ timestamp :=
           replaceCharWith 'Z' [] (replaceCharWith 'T' [' '] (firstSpaceToken line)),
         level := classify (restAfterFirstSpace line),
         message := pyTruncate (restAfterFirstSpace line) 800 }] :=
  processLine_of_TZ_space now hT hZ hsp

/-- C8 witness: the amended statement evaluated on a Docker-style line. -/
theorem c8_timestamped_parse_witness :
    processLine "t" "2024-08-08T10:30:45Z Started service" =
      [{ timestamp := "2024-08-08 10:30:45", level := Level.info,
         message := "Started service" }] := by
  have h := c8_timestamped_parse "t" "2024-08-08T10:30:45Z Started service"
    (by decide) (by decide) (by decide)
  rw [h]
  decide

/-- C9: blank or whitespace-only lines produce no record at all:
`processLine` returns `[]` on them, the line loop equals the same loop
restricted to the non-blank lines, and hence the pre-truncation total is
at most the number of non-blank lines. -/
theorem c9_blank_lines_skipped (now text line : String) :
    ((pyStrip line).data = [] → processLine now line = []) ∧
    parseRecords now text =
      ((pySplitChar '\n' (pyStrip text)).filter
        (fun l => !(pyStrip l).data.isEmpty)).flatMap (processLine now) ∧
    (parseRecords now text).length ≤
      ((pySplitChar '\n' (pyStrip text)).filter
        (fun l => !(pyStrip l).data.isEmpty)).length := by
  have hblank : ∀ l : String,
      (fun l => !(pyStrip l).data.isEmpty) l = false → processLine now l = [] := by
    intro l hl
    apply processLine_of_blank
    simpa using hl
  have he := flatMap_filter_of_nil (processLine now)
    (fun l => !(pyStrip l).data.isEmpty) hblank (pySplitChar '\n' (pyStrip text))
  refine ⟨fun h => processLine_of_blank now h, he, ?_⟩
  unfold parseRecords
  rw [he]
  exact length_flatMap_le_of_le_one (processLine now) (processLine_length_le now) _

/-- C9 witness: a whitespace-only line produces no record. -/
theorem c9_blank_lines_skipped_witness :
    processLine "t" "   " = [] :=
  (c9_blank_lines_skipped "t" "x" "   ").1 (by decide)

/-- C10: fallback records are always level `info`: a non-blank line
lacking T or Z yields an info record even when its text contains
classifier keywords (e.g. "ERROR: disk failure", which the classifier
itself rates `error`), and the exception-fallback record is info by
construction. -/
theorem c10_fallback_always_info (now line : String) :
    ((pyStrip line).data ≠ [] →
      (pyContainsChar line 'T' = false ∨ pyContainsChar line 'Z' = false) →
      processLine now line =
        [{ timestamp := now, level := .info, message := pyTruncate line 800 }]) ∧
    (exceptFallbackRecord now line).level = .info ∧
    classify "ERROR: disk failure" = .error ∧
    processLine "t" "ERROR: disk failure" =
      [{ timestamp := "t", level := .info, message := "ERROR: disk failure" }] := by
  refine ⟨?_, rfl, by decide, by decide⟩
  intro hnb hTZ
  apply processLine_of_noTZ now hnb
  intro hand
  rcases hTZ with h | h
  · rw [hand.1] at h
    cases h
  · rw [hand.2] at h
    cases h

/-- C10 witness: a keyword-bearing line without T or Z still comes out
as level `info`. -/
theorem c10_fallback_always_info_witness :
    processLine "t" "WARN: low disk" =
      [{ timestamp := "t", level := Level.info, message := "WARN: low disk" }] := by
  have h := (c10_fallback_always_info "t" "WARN: low disk").1 (by decide) (by decide)
  rw [h]
  decide

/-- C4: the severity classifier is a deterministic case-insensitive
keyword scan with first-match-wins precedence: it agrees with the
four-rule form of the claim (error keywords, else warning keywords, else
DEBUG, else info); any message whose upper-casing contains FAILED rates
`error` regardless of later rules; and the three case variants of
"Error occurred" all rate `error`, as does a message holding both FAILED
and WARN. -/
theorem c4_classifier_rules :
    (∀ m : String, classify m = classifyClaim m) ∧
    (∀ m : String, pyIn "FAILED" (pyUpper m) = true → classify m = .error) ∧
    classify "Error occurred" = .error ∧
    classify "ERROR occurred" = .error ∧
    classify "error OCCURRED" = .error ∧
    classify "deploy FAILED with WARN issued" = .error := by
  refine ⟨?_, ?_, by decide, by decide, by decide, by decide⟩
  · intro m
    simp only [classify, classifyClaim]
    split_ifs <;> rfl
  · intro m h
    have hany : (["ERROR", "EXCEPTION", "FAILED", "FATAL"].any
        (fun k => pyIn k (pyUpper m))) = true := by
      rw [List.any_eq_true]
      exact ⟨"FAILED", by simp, h⟩
    simp only [classify]
    rw [if_pos hany]

/-- C4 witness: the FAILED precedence rule evaluated on a concrete
message. -/
theorem c4_classifier_rules_witness : classify "x FAILED x" = Level.error :=
  c4_classifier_rules.2.1 "x FAILED x" (by decide)

/-- C7: an unexpected exception at the handler boundary becomes a
response with success false, exactly one error-level record describing
the exception, and HTTP status 500, while a normally produced response
passes through unchanged, so every outcome is serialized. -/
theorem c7_boundary_error (now e : String) (r : LogFeed × Nat) :
    (handleLogsBoundary now (Except.error e)).1.success = false ∧
    (handleLogsBoundary now (Except.error e)).1.logs =
      [{ timestamp := now, level := .error,
         message := "Error fetching logs: " ++ e }] ∧
    (handleLogsBoundary now (Except.error e)).1.logs.length = 1 ∧
    ((handleLogsBoundary now (Except.error e)).1.logs.getD 0 sampleRecord).level
      = .error ∧
    (handleLogsBoundary now (Except.error e)).1.error =
      some ("Failed to fetch logs: " ++ e) ∧
    (handleLogsBoundary now (Except.error e)).2 = 500 ∧
    handleLogsBoundary now (Except.ok r) = r :=
  ⟨rfl, rfl, rfl, rfl, rfl, rfl, rfl⟩

/-- C2: the assembled feed's `total` is the record count before
truncation and `logs` keeps the last min(total, 50) records in their
original relative order (entry i of `logs` is entry total-50+i of the
input), so len(logs) ≤ 50 and total ≥ len(logs); for 120 input records,
total is 120 and logs is exactly the last 50. -/
theorem c2_feed_assembly (records : List LogRecord) (used : String) :
    (assembleFeed records used).total = some records.length ∧
    (assembleFeed records used).logs.length = min records.length 50 ∧
    (∀ i, i < (assembleFeed records used).logs.length →
       (assembleFeed records used).logs.getD i sampleRecord =
         records.getD (records.length - 50 + i) sampleRecord) ∧
    (assembleFeed records used).logs.length ≤ 50 ∧
    (assembleFeed records used).logs.length ≤ records.length ∧
    (records.length = 120 →
       (assembleFeed records used).total = some 120 ∧
       (assembleFeed records used).logs.length = 50 ∧
       (assembleFeed records used).logs = records.drop 70) := by
  have hlen : (assembleFeed records used).logs.length = min records.length 50 := by
    show (records.drop (records.length - 50)).length = min records.length 50
    rw [List.length_drop]
    omega
  refine ⟨rfl, hlen, ?_, ?_, ?_, ?_⟩
  · intro i hi
    have hi2 : records.length - 50 + i < records.length := by
      rw [hlen] at hi
      omega
    have hi1 : i < (records.drop (records.length - 50)).length := hi
    show (records.drop (records.length - 50)).getD i sampleRecord =
      records.getD (records.length - 50 + i) sampleRecord
    rw [List.getD_eq_getElem _ sampleRecord hi1,
      List.getD_eq_getElem records sampleRecord hi2]
    exact List.getElem_drop records
  · rw [hlen]
    omega
  · rw [hlen]
    omega
  · intro h120
    refine ⟨?_, ?_, ?_⟩
    · show some records.length = some 120
      rw [h120]
    · rw [hlen, h120]
      decide
    · show records.drop (records.length - 50) = records.drop 70
      rw [h120]

/-- C2 witness: the 120-record case and the order-preservation index
rule evaluated on a concrete list. -/
theorem c2_feed_assembly_witness :
    (assembleFeed (List.replicate 120 sampleRecord) "localstack-main").total
      = some 120 ∧
    (assembleFeed (List.replicate 120 sampleRecord) "localstack-main").logs.length
      = 50 ∧
    (assembleFeed (List.replicate 120 sampleRecord) "localstack-main").logs
      = (List.replicate 120 sampleRecord).drop 70 ∧
    (assembleFeed (List.replicate 120 sampleRecord) "localstack-main").logs.getD
        0 sampleRecord
      = (List.replicate 120 sampleRecord).getD (120 - 50 + 0) sampleRecord := by
  have h := c2_feed_assembly (List.replicate 120 sampleRecord) "localstack-main"
  have h120 := h.2.2.2.2.2 (by simp)
  refine ⟨h120.1, h120.2.1, h120.2.2, ?_⟩
  have hidx := h.2.2.1 0 (by rw [h120.2.1]; decide)
  simpa using hidx

/-- C3: every record produced by the timestamped parse, the
no-timestamp fallback, the exception fallback, or the diagnostic
fallback has a message of at most 800 characters and a level among
debug, info, warning, error. -/
theorem c3_record_invariants (now : String) (r : LogRecord) :
    ((∃ data, r ∈ parseRecords now data) ∨
     (∃ listing, r ∈ (diagnosticFeed now listing).logs) ∨
     (∃ line, r = exceptFallbackRecord now line)) →
    r.message.length ≤ 800 ∧
    (r.level = .debug ∨ r.level = .info ∨ r.level = .warning ∨ r.level = .error) := by
  intro h
  constructor
  · rcases h with ⟨data, hmem⟩ | ⟨listing, hmem⟩ | ⟨line, rfl⟩
    · obtain ⟨line, _, hline⟩ := List.mem_flatMap.mp hmem
      exact processLine_message_le now line hline
    · simp only [diagnosticFeed, List.mem_cons, List.not_mem_nil, or_false] at hmem
      rcases hmem with rfl | rfl | rfl | rfl
      · show ("No LocalStack container found running" : String).length ≤ 800
        decide
      · show ("Searched for containers: "
          ++ String.intercalate ", " containerNames).length ≤ 800
        decide
      · show ("Available containers:" : String).length ≤ 800
        decide
      · exact Nat.le_trans (pyTruncate_length_le _ _) (by omega)
    · exact pyTruncate_length_le _ _
  · rcases r with ⟨ts, lvl, msg⟩
    cases lvl
    · exact Or.inl rfl
    · exact Or.inr (Or.inl rfl)
    · exact Or.inr (Or.inr (Or.inl rfl))
    · exact Or.inr (Or.inr (Or.inr rfl))

/-- C3 witness: the invariant evaluated on the record parsed from a
concrete line. -/
theorem c3_record_invariants_witness :
    ({ timestamp := "t", level := Level.info, message := "hello" }
        : LogRecord).message.length ≤ 800 ∧
    (({ timestamp := "t", level := Level.info, message := "hello" }
        : LogRecord).level = Level.debug ∨
     ({ timestamp := "t", level := Level.info, message := "hello" }
        : LogRecord).level = Level.info ∨
     ({ timestamp := "t", level := Level.info, message := "hello" }
        : LogRecord).level = Level.warning ∨
     ({ timestamp := "t", level := Level.info, message := "hello" }
        : LogRecord).level = Level.error) :=
  c3_record_invariants "t" _ (Or.inl ⟨"hello", by decide⟩)

/-- C5: the resolver tries the candidates strictly in list order with
per-candidate failures swallowed: it yields `none` exactly when no
candidate both completes with status 0 and has non-empty stripped
output; and when it yields a pair, the winner is the first good
candidate in order, iteration having passed only bad candidates before
it, and the returned text is the winner's stdout. -/
theorem c5_resolver_order (fetch : String → FetchOutcome) (cs : List String) :
    (resolveSource fetch cs = none ↔ ∀ c ∈ cs, goodCandidate fetch c = false) ∧
    (∀ out used, resolveSource fetch cs = some (out, used) →
       ∃ i, ∃ hi : i < cs.length,
         cs.get ⟨i, hi⟩ = used ∧
         fetch used = FetchOutcome.completed 0 out ∧
         (pyStrip out).data ≠ [] ∧
         ∀ j (hj : j < i),
           goodCandidate fetch (cs.get ⟨j, Nat.lt_trans hj hi⟩) = false) :=
  ⟨resolveSource_none_iff fetch cs, resolveSource_some_spec fetch cs⟩

/-- C5 witness: with every candidate raising, resolution yields none. -/
theorem c5_resolver_order_witness :
    resolveSource (fun _ => FetchOutcome.raised) containerNames = none :=
  (c5_resolver_order (fun _ => FetchOutcome.raised) containerNames).1.mpr (by decide)

/-- C6: when no candidate resolves, the handler answers status 200 with
the diagnostic feed: success true, source "troubleshooting", and exactly
the four synthetic records in order (a warning that no source was found,
an info naming the searched identifiers, the info header, and a debug
record with the listing truncated to 500 characters); a failed listing
is replaced by a placeholder string instead of propagating. -/
theorem c6_diagnostic_feed (now : String) (fetch : String → FetchOutcome)
    (ps : FetchOutcome)
    (hfail : ∀ c ∈ containerNames, goodCandidate fetch c = false) :
    handleLogs now fetch ps = (diagnosticFeed now (containerListing ps), 200) ∧
    (diagnosticFeed now (containerListing ps)).success = true ∧
    (diagnosticFeed now (containerListing ps)).source = some "troubleshooting" ∧
    (diagnosticFeed now (containerListing ps)).logs =
      [{ timestamp := now, level := .warning,
         message := "No LocalStack container found running" },
       { timestamp := now, level := .info,
         message := "Searched for containers: localstack-main, localstack-demo-localstack-1, localstack_main, localstack" },
       { timestamp := now, level := .info, message := "Available containers:" },
       { timestamp := now, level := .debug,
         message := pyTruncate (containerListing ps) 500 }] ∧
    (((diagnosticFeed now (containerListing ps)).logs.getD 3 sampleRecord).message).length
      ≤ 500 ∧
    containerListing FetchOutcome.raised = "Docker not available" ∧
    (∀ rc out, rc ≠ 0 →
       containerListing (FetchOutcome.completed rc out)
         = "Unable to list containers") := by
  refine ⟨?_, rfl, rfl, rfl, ?_, rfl, ?_⟩
  · unfold handleLogs
    rw [(resolveSource_none_iff fetch containerNames).mpr hfail]
  · show (pyTruncate (containerListing ps) 500).length ≤ 500
    exact pyTruncate_length_le _ _
  · intro rc out hrc
    show (if rc = 0 then out else "Unable to list containers")
      = "Unable to list containers"
    rw [if_neg hrc]

/-- C6 witness: the handler evaluated with every docker call raising. -/
theorem c6_diagnostic_feed_witness :
    handleLogs "t" (fun _ => FetchOutcome.raised) FetchOutcome.raised =
      (diagnosticFeed "t" "Docker not available", 200) :=
  (c6_diagnostic_feed "t" (fun _ => FetchOutcome.raised) FetchOutcome.raised
    (by decide)).1

end CorsServer
